import Mathlib

set_option maxRecDepth 100000

attribute [local semireducible] Rat.add Rat.sub Rat.mul

/-!
Verification of the DJ harmonic toolkit core (`dj_toolkit.py`): the key-notation
normalization and compatibility model, the compatibility query over the external
track catalog, the content fingerprint, and the incremental library scanner.
Each Python dictionary is embedded as an association list; Python `dict`
construction with later-entries-overriding is modelled by `dictInsert`.
-/

namespace DJ

/-- Association-list lookup, first match wins (Python `dict` access). -/
def dictLookup (d : List (String × String)) (k : String) : Option String :=
  match d.find? (fun p => p.1 = k) with
  | some p => some p.2
  | none => none

/-- Python `dict` assignment `d[k] = v`: replace the entry if the key is
present, else append it. -/
def dictInsert (d : List (String × String)) (k v : String) : List (String × String) :=
  if d.any (fun p => p.1 = k) then
    d.map (fun p => if p.1 = k then (k, v) else p)
  else
    d ++ [(k, v)]

/-- `self.harmonic_compatibility`: circle-of-fifths compatibility classes in
traditional notation, transcribed from `init_harmonic_compatibility`. -/
def harmonic_compatibility : List (String × List String) :=
  [("C", ["C", "F", "G", "Am", "Dm", "Em"]),
   ("C♯", ["C♯", "F♯", "G♯", "A♯m", "D♯m", "E♯m"]),
   ("D♭", ["D♭", "G♭", "A♭", "B♭m", "E♭m", "Fm"]),
   ("D", ["D", "G", "A", "Bm", "Em", "F♯m"]),
   ("E♭", ["E♭", "A♭", "B♭", "Cm", "Fm", "Gm"]),
   ("E", ["E", "A", "B", "C♯m", "F♯m", "G♯m"]),
   ("F", ["F", "B♭", "C", "Dm", "Gm", "Am"]),
   ("F♯", ["F♯", "B", "C♯", "D♯m", "G♯m", "A♯m"]),
   ("G♭", ["G♭", "B", "D♭", "E♭m", "A♭m", "B♭m"]),
   ("G", ["G", "C", "D", "Em", "Am", "Bm"]),
   ("A♭", ["A♭", "D♭", "E♭", "Fm", "B♭m", "Cm"]),
   ("A", ["A", "D", "E", "F♯m", "Bm", "C♯m"]),
   ("B♭", ["B♭", "E♭", "F", "Gm", "Cm", "Dm"]),
   ("B", ["B", "E", "F♯", "G♯m", "C♯m", "D♯m"]),
   ("Am", ["Am", "Dm", "Em", "C", "F", "G"]),
   ("A♯m", ["A♯m", "D♯m", "E♯m", "C♯", "F♯", "G♯"]),
   ("B♭m", ["B♭m", "E♭m", "Fm", "D♭", "G♭", "A♭"]),
   ("Bm", ["Bm", "Em", "F♯m", "D", "G", "A"]),
   ("Cm", ["Cm", "Fm", "Gm", "E♭", "A♭", "B♭"]),
   ("C♯m", ["C♯m", "F♯m", "G♯m", "E", "A", "B"]),
   ("Dm", ["Dm", "Gm", "Am", "F", "B♭", "C"]),
   ("D♯m", ["D♯m", "G♯m", "A♯m", "F♯", "B", "C♯"]),
   ("E♭m", ["E♭m", "A♭m", "B♭m", "G♭", "B", "D♭"]),
   ("Em", ["Em", "Am", "Bm", "G", "C", "D"]),
   ("Fm", ["Fm", "B♭m", "Cm", "A♭", "D♭", "E♭"]),
   ("F♯m", ["F♯m", "Bm", "C♯m", "A", "D", "E"]),
   ("Gm", ["Gm", "Cm", "Dm", "B♭", "E♭", "F"]),
   ("G♯m", ["G♯m", "C♯m", "D♯m", "B", "E", "F♯"])]

/-- Lookup in `harmonic_compatibility`. -/
def harmonicLookup (k : String) : Option (List String) :=
  match harmonic_compatibility.find? (fun p => p.1 = k) with
  | some p => some p.2
  | none => none

/-- `self.camelot_mapping`: traditional to Camelot, in the source's insertion
order (`F♯` before `G♭`, `D♯m` before `E♭m`). -/
def camelot_mapping : List (String × String) :=
  [("C", "8B"), ("D♭", "3B"), ("D", "10B"), ("E♭", "5B"), ("E", "12B"), ("F", "7B"),
   ("F♯", "2B"), ("G♭", "2B"), ("G", "9B"), ("A♭", "4B"), ("A", "11B"), ("B♭", "6B"), ("B", "1B"),
   ("Am", "8A"), ("B♭m", "3A"), ("Bm", "10A"), ("Cm", "5A"), ("C♯m", "12A"), ("Dm", "7A"),
   ("D♯m", "2A"), ("E♭m", "2A"), ("Em", "9A"), ("Fm", "4A"), ("F♯m", "11A"), ("Gm", "6A"), ("G♯m", "1A")]

/-- The reverse dict comprehension `{v: k for k, v in camelot_mapping.items()}`:
later entries override earlier ones, so `2B` maps to `G♭` and `2A` to `E♭m`. -/
def camelot_bare : List (String × String) :=
  camelot_mapping.foldl (fun d p => dictInsert d p.2 p.1) []

/-- The literal passed to `camelot_to_traditional.update(...)`: combined
`"code (traditional)"` spellings. -/
def camelot_combined : List (String × String) :=
  [("8B (C)", "C"), ("3B (D♭)", "D♭"), ("10B (D)", "D"), ("5B (E♭)", "E♭"),
   ("12B (E)", "E"), ("7B (F)", "F"), ("2B (F♯/G♭)", "F♯"), ("9B (G)", "G"),
   ("4B (A♭)", "A♭"), ("11B (A)", "A"), ("6B (B♭)", "B♭"), ("1B (B)", "B"),
   ("8A (Am)", "Am"), ("3A (B♭m)", "B♭m"), ("10A (Bm)", "Bm"), ("5A (Cm)", "Cm"),
   ("12A (C♯m)", "C♯m"), ("7A (Dm)", "Dm"), ("2A (D♯m/E♭m)", "D♯m"), ("9A (Em)", "Em"),
   ("4A (Fm)", "Fm"), ("11A (F♯m)", "F♯m"), ("6A (Gm)", "Gm"), ("1A (G♯m)", "G♯m")]

/-- `self.camelot_to_traditional` after the `.update(...)` call. -/
def camelot_to_traditional : List (String × String) :=
  camelot_combined.foldl (fun d p => dictInsert d p.1 p.2) camelot_bare

/-- Python `str.strip()` on the characters of a string. -/
def stripChars (cs : List Char) : List Char :=
  ((cs.dropWhile Char.isWhitespace).reverse.dropWhile Char.isWhitespace).reverse

/-- Python `str.strip()`. -/
def pystrip (s : String) : String :=
  String.mk (stripChars s.data)

/-- `normalize_key`: `None` (here `none`) for the empty string, the two special
combined spellings, then the Camelot table, else the input unchanged. -/
def normalize_key (key : String) : Option String :=
  if key = "" then none
  else
    let k := pystrip key
    if k = "D♯m/E♭m" then some "D♯m"
    else if k = "F♯/G♭" then some "F♯"
    else
      match dictLookup camelot_to_traditional k with
      | some t => some t
      | none => some k

/-- Python `set.add`: append if not already present (membership model of the
set `all_compatible`; the claims only ever use membership). -/
def addU (l : List String) (x : String) : List String :=
  if x ∈ l then l else l ++ [x]

/-- `get_all_compatible_keys`: normalize, look up the traditional class
(falling back to the singleton), add the Camelot and combined spellings, then
the alternative spellings for the two enharmonically ambiguous keys. -/
def get_all_compatible_keys (input_key : String) : List String :=
  match normalize_key input_key with
  | none => []
  | some nk =>
    let compatible_traditional := (harmonicLookup nk).getD [nk]
    let base := compatible_traditional.foldl addU []
    let withCamelot := compatible_traditional.foldl
      (fun acc tk =>
        match dictLookup camelot_mapping tk with
        | some ck => addU (addU acc ck) (ck ++ " (" ++ tk ++ ")")
        | none => acc) base
    withCamelot.foldl
      (fun acc k =>
        if k = "D♯m" then addU (addU acc "D♯m/E♭m") "E♭m"
        else if k = "F♯" then addU (addU acc "F♯/G♭") "G♭"
        else acc) withCamelot

/-- The key spellings the model recognizes: the keys of
`harmonic_compatibility`, the keys of `camelot_to_traditional` (bare and
combined Camelot spellings), and the two special combined spellings handled
directly in `normalize_key`. -/
def recognized_keys : List String :=
  harmonic_compatibility.map (fun p => p.1) ++
    camelot_to_traditional.map (fun p => p.1) ++ ["D♯m/E♭m", "F♯/G♭"]

/-- The enharmonic alias of a traditional spelling appearing in the static
tables (`C♯`/`D♭`, `F♯`/`G♭`, `A♯m`/`B♭m`, `D♯m`/`E♭m`, `G♯m`/`A♭m`);
identity for every other spelling. -/
def enhAlias (k : String) : String :=
  if k = "C♯" then "D♭" else if k = "D♭" then "C♯"
  else if k = "F♯" then "G♭" else if k = "G♭" then "F♯"
  else if k = "A♯m" then "B♭m" else if k = "B♭m" then "A♯m"
  else if k = "D♯m" then "E♭m" else if k = "E♭m" then "D♯m"
  else if k = "G♯m" then "A♭m" else if k = "A♭m" then "G♯m"
  else k

/-- Two normalization results denote the same tonal identity: equal, or
enharmonic aliases of one another. -/
def optEnhEq (a b : Option String) : Bool :=
  match a, b with
  | some x, some y => x = y || enhAlias x = y
  | _, _ => false

/-- A row of the external track catalog (the `library` table read by
`get_compatible_tracks`): `mixxx_deleted` is modelled by `deleted`. -/
structure Track where
  artist : String
  title : String
  album : String
  bpm : Rat
  key : String
  duration : Rat
  location : String
  deleted : Bool
deriving DecidableEq

/-- SQL `ABS` on rationals. -/
def ratAbs (x : Rat) : Rat :=
  if x < 0 then -x else x

/-- The SQL `ORDER BY` sort key of a row: the `CASE WHEN key = ? THEN 0 ELSE 1`
group (comparison with the raw query key) and `ABS(bpm - ?)`. -/
def track_rank (current_key : String) (current_bpm : Rat) (t : Track) : Nat × Rat :=
  (if t.key = current_key then 0 else 1, ratAbs (t.bpm - current_bpm))

/-- Lexicographic comparison of sort keys. -/
def rankLe (a b : Nat × Rat) : Prop :=
  a.1 < b.1 ∨ (a.1 = b.1 ∧ a.2 ≤ b.2)

instance : DecidableRel rankLe := fun a b =>
  inferInstanceAs (Decidable (a.1 < b.1 ∨ (a.1 = b.1 ∧ a.2 ≤ b.2)))

/-- Row ordering used by the query's `ORDER BY`. -/
def track_le (ck : String) (cb : Rat) (t u : Track) : Prop :=
  rankLe (track_rank ck cb t) (track_rank ck cb u)

instance (ck : String) (cb : Rat) : DecidableRel (track_le ck cb) := fun t u =>
  inferInstanceAs (Decidable (rankLe (track_rank ck cb t) (track_rank ck cb u)))

theorem rankLe_total (a b : Nat × Rat) : rankLe a b ∨ rankLe b a := by
  rcases Nat.lt_trichotomy a.1 b.1 with h | h | h
  · exact Or.inl (Or.inl h)
  · rcases le_total a.2 b.2 with h2 | h2
    · exact Or.inl (Or.inr ⟨h, h2⟩)
    · exact Or.inr (Or.inr ⟨h.symm, h2⟩)
  · exact Or.inr (Or.inl h)

theorem rankLe_trans (a b c : Nat × Rat) (hab : rankLe a b) (hbc : rankLe b c) :
    rankLe a c := by
  rcases hab with h1 | ⟨e1, l1⟩
  · rcases hbc with h2 | ⟨e2, _⟩
    · exact Or.inl (h1.trans h2)
    · exact Or.inl (e2 ▸ h1)
  · rcases hbc with h2 | ⟨e2, l2⟩
    · exact Or.inl (e1 ▸ h2)
    · exact Or.inr ⟨e1.trans e2, l1.trans l2⟩

instance (ck : String) (cb : Rat) : IsTotal Track (track_le ck cb) :=
  ⟨fun t u => rankLe_total _ _⟩

instance (ck : String) (cb : Rat) : IsTrans Track (track_le ck cb) :=
  ⟨fun a b c => rankLe_trans _ _ _⟩

/-- `get_compatible_tracks`: expand the query key into all compatible
spellings (falling back to the raw key when empty), then the SQL query:
filter rows with `bpm BETWEEN bpm_min AND bpm_max`, `key IN (...)` and
`mixxx_deleted = 0`, order by exact raw-key match then absolute tempo
distance, and `LIMIT 50`. -/
def get_compatible_tracks (catalog : List Track) (current_bpm : Rat)
    (current_key : String) (bpm_tolerance : Rat) : List Track :=
  let compatible_keys0 := get_all_compatible_keys current_key
  let compatible_keys := if compatible_keys0 = [] then [current_key] else compatible_keys0
  let bpm_min := current_bpm - bpm_tolerance
  let bpm_max := current_bpm + bpm_tolerance
  let rows := catalog.filter (fun t =>
    decide (bpm_min ≤ t.bpm ∧ t.bpm ≤ bpm_max ∧ t.key ∈ compatible_keys ∧ t.deleted = false))
  (List.insertionSort (track_le current_key current_bpm) rows).take 50

/-- The compatibility tier attached to each result row by
`find_compatible_tracks`: `Perfect` when the normalized keys coincide,
`Good` when the normalized track key is in the compatible set of the
normalized query key, else `OK`. -/
def compatibility_tier (query_key track_key : String) : String :=
  let nc := normalize_key query_key
  let nt := normalize_key track_key
  if nt = nc then "Perfect"
  else
    let ks := match nc with
      | none => []
      | some c => get_all_compatible_keys c
    match nt with
    | some t => if t ∈ ks then "Good" else "OK"
    | none => "OK"

/-- `self.audio_extensions` (a Python set; its iteration order only affects
candidate order, which no claim depends on). -/
def audio_extensions : List String :=
  [".mp3", ".flac", ".wav", ".m4a", ".aac", ".ogg", ".wma"]

/-- Python `str.upper()` on the ASCII extension strings. -/
def pyupper (s : String) : String :=
  String.mk (s.data.map Char.toUpper)

/-- The suffix match performed by the `rglob "*<ext>"` patterns. -/
def strEndsWith (s suffix : String) : Bool :=
  suffix.data.isSuffixOf s.data

/-- One file of the scanned directory as the scan observes it: `hashResult`
is the value `get_file_hash` returns for it (`none` models the fingerprint
failure path, which returns `None` without raising), and `statOk` records
whether `Path.stat()` succeeds (`false` makes the per-file `try`/`except`
skip the file). -/
structure FileEntry where
  path : String
  file_size : Nat
  mtime : Rat
  hashResult : Option String
  statOk : Bool
deriving DecidableEq

/-- The metadata record returned by `analyze_audio_file` on success (its
`bpm` and `key` entries are always `None` in the source). -/
structure Analysis where
  duration : Rat
  artist : Option String
  title : Option String
  album : Option String
  genre : Option String
deriving DecidableEq

/-- One row of the `scanned_files` table (the columns written by the scan). -/
structure Record where
  file_hash : Option String
  file_size : Nat
  last_modified : Rat
  bpm : Option Rat
  key : Option String
  duration : Rat
  artist : Option String
  title : Option String
  album : Option String
  genre : Option String
deriving DecidableEq

/-- The `scanned_files` table: one row per unique `file_path`. -/
abbrev DB := List (String × Record)

/-- `SELECT ... FROM scanned_files WHERE file_path = ?`. -/
def dbLookup : DB → String → Option Record
  | [], _ => none
  | e :: es, p => if e.1 = p then some e.2 else dbLookup es p

/-- `INSERT OR REPLACE` keyed on the unique `file_path` column. -/
def dbUpsert : DB → String → Record → DB
  | [], p, r => [(p, r)]
  | e :: es, p, r => if e.1 = p then (p, r) :: es else e :: dbUpsert es p r

/-- The row written for file `f` from a successful analysis. -/
def mkRecord (f : FileEntry) (a : Analysis) : Record :=
  { file_hash := f.hashResult, file_size := f.file_size, last_modified := f.mtime,
    bpm := none, key := none, duration := a.duration,
    artist := a.artist, title := a.title, album := a.album, genre := a.genre }

/-- The scan's running state: the database plus the three counters. -/
structure ScanState where
  db : DB
  files_found : Nat
  new_files : Nat
  updated_files : Nat
deriving DecidableEq

/-- The body of the per-file loop of `scan_music_library`: skip on stat
failure; otherwise count the file as new (no prior row) or updated (hash or
mtime differs), attempt analysis when flagged, upsert only on success, and
always increment `files_found`. -/
def scanStep (analyzer : String → Option Analysis) (s : ScanState) (f : FileEntry) :
    ScanState :=
  if f.statOk = false then s
  else
    match dbLookup s.db f.path with
    | none =>
      let s1 : ScanState := { s with new_files := s.new_files + 1 }
      let s2 : ScanState :=
        match analyzer f.path with
        | some a => { s1 with db := dbUpsert s1.db f.path (mkRecord f a) }
        | none => s1
      { s2 with files_found := s2.files_found + 1 }
    | some r =>
      if r.file_hash ≠ f.hashResult ∨ r.last_modified ≠ f.mtime then
        let s1 : ScanState := { s with updated_files := s.updated_files + 1 }
        let s2 : ScanState :=
          match analyzer f.path with
          | some a => { s1 with db := dbUpsert s1.db f.path (mkRecord f a) }
          | none => s1
        { s2 with files_found := s2.files_found + 1 }
      else
        { s with files_found := s.files_found + 1 }

/-- Candidate enumeration: for every audio extension the files matched by
the lower-case pattern and by the upper-case pattern. -/
def candidates (files : List FileEntry) : List FileEntry :=
  audio_extensions.foldl
    (fun acc e =>
      acc ++ files.filter (fun f => strEndsWith f.path e)
          ++ files.filter (fun f => strEndsWith f.path (pyupper e))) []

/-- `scan_music_library`: fold the per-file step over the candidates
starting from the existing database and zeroed counters. -/
def scan_music_library (analyzer : String → Option Analysis) (db0 : DB)
    (files : List FileEntry) : ScanState :=
  (candidates files).foldl (scanStep analyzer) ⟨db0, 0, 0, 0⟩

/-- `get_file_hash`: md5 over `f.read(65536)` from the start and, after
`f.seek(-65536, 2)` (which raises, hence returns `None`, when the file is
smaller than 64 KiB), another `f.read(65536)`. The digest value is modelled
by the exact byte sequence fed to md5. -/
def get_file_hash (openOk : Bool) (content : List Nat) : Option (List Nat) :=
  if openOk = false then none
  else if content.length < 65536 then none
  else some (content.take 65536 ++ (content.drop (content.length - 65536)).take 65536)

/-- The database has a row for `f.path` whose stored hash and mtime agree
with the file's current fingerprint. -/
def recMatches (db : DB) (f : FileEntry) : Prop :=
  ∃ r, dbLookup db f.path = some r ∧
    r.file_hash = f.hashResult ∧ r.last_modified = f.mtime

theorem dbLookup_upsert_self (db : DB) (p : String) (r : Record) :
    dbLookup (dbUpsert db p r) p = some r := by
  induction db with
  | nil => simp [dbUpsert, dbLookup]
  | cons e es ih =>
    by_cases h : e.1 = p
    · simp [dbUpsert, h, dbLookup]
    · simp [dbUpsert, h, dbLookup, ih]

theorem dbLookup_upsert_other (db : DB) (p q : String) (r : Record) (h : q ≠ p) :
    dbLookup (dbUpsert db p r) q = dbLookup db q := by
  induction db with
  | nil => simp [dbUpsert, dbLookup, Ne.symm h]
  | cons e es ih =>
    by_cases hc : e.1 = p
    · simp [dbUpsert, hc, dbLookup, Ne.symm h]
    · simp [dbUpsert, hc, dbLookup, ih]

theorem dbLookup_upsert_isSome (db : DB) (p q : String) (r : Record)
    (h : (dbLookup db q).isSome = true) :
    (dbLookup (dbUpsert db p r) q).isSome = true := by
  by_cases hpq : q = p
  · subst hpq; rw [dbLookup_upsert_self]; rfl
  · rw [dbLookup_upsert_other _ _ _ _ hpq]; exact h

theorem scanStep_db_lookup_other (a : String → Option Analysis) (s : ScanState)
    (f : FileEntry) (q : String) (h : q ≠ f.path) :
    dbLookup (scanStep a s f).db q = dbLookup s.db q := by
  cases hstat : f.statOk with
  | false => simp [scanStep, hstat]
  | true =>
    cases hl : dbLookup s.db f.path with
    | none =>
      cases ha : a f.path with
      | none => simp [scanStep, hstat, hl, ha]
      | some an => simp [scanStep, hstat, hl, ha, dbLookup_upsert_other _ _ _ _ h]
    | some r =>
      by_cases hne : r.file_hash ≠ f.hashResult ∨ r.last_modified ≠ f.mtime
      · cases ha : a f.path with
        | none => simp [scanStep, hstat, hl, hne, ha]
        | some an => simp [scanStep, hstat, hl, hne, ha, dbLookup_upsert_other _ _ _ _ h]
      · simp [scanStep, hstat, hl, hne]

theorem scanStep_files_found (a : String → Option Analysis) (s : ScanState)
    (f : FileEntry) (hstat : f.statOk = true) :
    (scanStep a s f).files_found = s.files_found + 1 := by
  cases hl : dbLookup s.db f.path with
  | none => cases ha : a f.path <;> simp [scanStep, hstat, hl, ha]
  | some r =>
    by_cases hne : r.file_hash ≠ f.hashResult ∨ r.last_modified ≠ f.mtime
    · cases ha : a f.path <;> simp [scanStep, hstat, hl, hne, ha]
    · simp [scanStep, hstat, hl, hne]

theorem scanStep_matches_self (a : String → Option Analysis) (s : ScanState)
    (f : FileEntry) (hstat : f.statOk = true) (hana : (a f.path).isSome = true) :
    recMatches (scanStep a s f).db f := by
  cases hl : dbLookup s.db f.path with
  | none =>
    cases ha : a f.path with
    | none => rw [ha] at hana; simp at hana
    | some an =>
      exact ⟨mkRecord f an,
        by simp [scanStep, hstat, hl, ha, dbLookup_upsert_self], rfl, rfl⟩
  | some r =>
    by_cases hne : r.file_hash ≠ f.hashResult ∨ r.last_modified ≠ f.mtime
    · cases ha : a f.path with
      | none => rw [ha] at hana; simp at hana
      | some an =>
        exact ⟨mkRecord f an,
          by simp [scanStep, hstat, hl, hne, ha, dbLookup_upsert_self], rfl, rfl⟩
    · push_neg at hne
      exact ⟨r, by simp [scanStep, hstat, hl, hne.1, hne.2], hne.1, hne.2⟩

theorem scanStep_of_matched (a : String → Option Analysis) (s : ScanState)
    (f : FileEntry) (hstat : f.statOk = true) (h : recMatches s.db f) :
    scanStep a s f = { s with files_found := s.files_found + 1 } := by
  obtain ⟨r, hl, h1, h2⟩ := h
  simp [scanStep, hstat, hl, h1, h2]

theorem scanStep_preserves_isSome (a : String → Option Analysis) (s : ScanState)
    (f : FileEntry) (p : String) (h : (dbLookup s.db p).isSome = true) :
    (dbLookup (scanStep a s f).db p).isSome = true := by
  cases hstat : f.statOk with
  | false => simpa [scanStep, hstat] using h
  | true =>
    cases hl : dbLookup s.db f.path with
    | none =>
      cases ha : a f.path with
      | none => simpa [scanStep, hstat, hl, ha] using h
      | some an =>
        simpa [scanStep, hstat, hl, ha] using dbLookup_upsert_isSome s.db f.path p _ h
    | some r =>
      by_cases hne : r.file_hash ≠ f.hashResult ∨ r.last_modified ≠ f.mtime
      · cases ha : a f.path with
        | none => simpa [scanStep, hstat, hl, hne, ha] using h
        | some an =>
          simpa [scanStep, hstat, hl, hne, ha] using dbLookup_upsert_isSome s.db f.path p _ h
      · simpa [scanStep, hstat, hl, hne] using h

theorem foldl_db_lookup_other (a : String → Option Analysis) (l : List FileEntry)
    (s : ScanState) (q : String) (h : ∀ f ∈ l, f.path ≠ q) :
    dbLookup (l.foldl (scanStep a) s).db q = dbLookup s.db q := by
  induction l generalizing s with
  | nil => rfl
  | cons g l ih =>
    rw [List.foldl_cons, ih _ (fun x hx => h x (List.mem_cons_of_mem _ hx)),
      scanStep_db_lookup_other]
    exact (h g (List.mem_cons_self _ _)).symm

theorem foldl_matches (a : String → Option Analysis) (l : List FileEntry)
    (s : ScanState)
    (hstat : ∀ f ∈ l, f.statOk = true)
    (hana : ∀ f ∈ l, (a f.path).isSome = true)
    (hpair : l.Pairwise (fun x y => x.path ≠ y.path)) :
    ∀ f ∈ l, recMatches ((l.foldl (scanStep a) s).db) f := by
  induction l generalizing s with
  | nil => intro f hf; cases hf
  | cons g l ih =>
    intro f hf
    rcases List.mem_cons.mp hf with rfl | hf'
    · obtain ⟨r, hr, h1, h2⟩ :=
        scanStep_matches_self a s f (hstat f (List.mem_cons_self _ _))
          (hana f (List.mem_cons_self _ _))
      refine ⟨r, ?_, h1, h2⟩
      rw [List.foldl_cons, foldl_db_lookup_other]
      · exact hr
      · intro x hx
        exact ((List.pairwise_cons.mp hpair).1 x hx).symm
    · rw [List.foldl_cons]
      exact ih (scanStep a s g)
        (fun x hx => hstat x (List.mem_cons_of_mem _ hx))
        (fun x hx => hana x (List.mem_cons_of_mem _ hx))
        (List.pairwise_cons.mp hpair).2 f hf'

theorem foldl_matched_run (a : String → Option Analysis) (l : List FileEntry)
    (s : ScanState)
    (hstat : ∀ f ∈ l, f.statOk = true)
    (hmatch : ∀ f ∈ l, recMatches s.db f) :
    l.foldl (scanStep a) s = { s with files_found := s.files_found + l.length } := by
  induction l generalizing s with
  | nil => simp
  | cons g l ih =>
    rw [List.foldl_cons,
      scanStep_of_matched a s g (hstat g (List.mem_cons_self _ _))
        (hmatch g (List.mem_cons_self _ _)),
      ih { s with files_found := s.files_found + 1 }
        (fun x hx => hstat x (List.mem_cons_of_mem _ hx))
        (fun x hx => hmatch x (List.mem_cons_of_mem _ hx))]
    simp only [List.length_cons]
    congr 1
    omega

theorem foldl_files_found (a : String → Option Analysis) (l : List FileEntry)
    (s : ScanState) (hstat : ∀ f ∈ l, f.statOk = true) :
    (l.foldl (scanStep a) s).files_found = s.files_found + l.length := by
  induction l generalizing s with
  | nil => simp
  | cons g l ih =>
    rw [List.foldl_cons, ih _ (fun x hx => hstat x (List.mem_cons_of_mem _ hx)),
      scanStep_files_found a s g (hstat g (List.mem_cons_self _ _))]
    simp only [List.length_cons]
    omega

theorem foldl_preserves_isSome (a : String → Option Analysis) (l : List FileEntry)
    (s : ScanState) (p : String) (h : (dbLookup s.db p).isSome = true) :
    (dbLookup ((l.foldl (scanStep a) s).db) p).isSome = true := by
  induction l generalizing s with
  | nil => exact h
  | cons g l ih =>
    rw [List.foldl_cons]
    exact ih _ (scanStep_preserves_isSome a s g p h)

end DJ

/-- Claim C1: for each of the 24 canonical keys (the entries of the bare
Camelot-to-traditional table built from `camelot_mapping`), normalizing the
traditional spelling returns it unchanged, and normalizing the Camelot
spelling returns that traditional spelling. -/
theorem claim_C1_canonical_normalize :
    DJ.camelot_bare.length = 24 ∧
      ∀ p ∈ DJ.camelot_bare,
        DJ.normalize_key p.2 = some p.2 ∧ DJ.normalize_key p.1 = some p.2 := by
  decide

/-- Witness for C1 at the canonical key C with Camelot spelling 8B. -/
theorem claim_C1_canonical_normalize_witness :
    DJ.normalize_key "C" = some "C" ∧ DJ.normalize_key "8B" = some "C" :=
  claim_C1_canonical_normalize.2 ("8B", "C") (by decide)

/-- Claim C2 counterexample: both `F♯` and `G♭` are recognized spellings,
`G♭` is in the compatible-key set of `F♯`, but `F♯` is not in the
compatible-key set of `G♭`, so compatibility as computed by
`get_all_compatible_keys` is not symmetric. -/
theorem claim_C2_symmetry_counterexample :
    "F♯" ∈ DJ.recognized_keys ∧ "G♭" ∈ DJ.recognized_keys ∧
      "G♭" ∈ DJ.get_all_compatible_keys "F♯" ∧
      "F♯" ∉ DJ.get_all_compatible_keys "G♭" := by
  decide

/-- Claim C2 (amended): for every recognized spelling K and every recognized
spelling K2 in the compatible-key set of K, the compatible-key set of K2
contains a spelling whose normalization is enharmonically equivalent to the
normalization of K (equal, or one of the alias pairs `C♯`/`D♭`, `F♯`/`G♭`,
`A♯m`/`B♭m`, `D♯m`/`E♭m`, `G♯m`/`A♭m`). -/
theorem claim_C2_symmetry_amended :
    ∀ k ∈ DJ.recognized_keys, ∀ k2 ∈ DJ.get_all_compatible_keys k,
      k2 ∈ DJ.recognized_keys →
        ∃ kp ∈ DJ.get_all_compatible_keys k2,
          DJ.optEnhEq (DJ.normalize_key kp) (DJ.normalize_key k) = true := by
  decide

/-- Witness for the amended C2 at K = `C`, K2 = `F`. -/
theorem claim_C2_symmetry_amended_witness :
    ∃ kp ∈ DJ.get_all_compatible_keys "F",
      DJ.optEnhEq (DJ.normalize_key kp) (DJ.normalize_key "C") = true :=
  claim_C2_symmetry_amended "C" (by decide) "F" (by decide) (by decide)

/-- Claim C10: the bare Camelot strings `2B` and `2A` normalize to the flat
spellings `G♭` and `E♭m` (the later entries of the reversed dict), while the
combined strings normalize to the sharp spellings `F♯` and `D♯m`. -/
theorem claim_C10_ambiguous_camelot :
    DJ.normalize_key "2B" = some "G♭" ∧ DJ.normalize_key "2A" = some "E♭m" ∧
      DJ.normalize_key "2B (F♯/G♭)" = some "F♯" ∧
      DJ.normalize_key "2A (D♯m/E♭m)" = some "D♯m" := by
  decide

/-- Claim C3 counterexample: with the external catalog holding a single track
whose stored key is `F♯m` and a query at the same tempo with key `F♯`, the
query returns no rows at all — `F♯m` is not in the compatible-key set of `F♯`
(the relative minor of F♯ major is D♯m), so the row is not included. -/
theorem claim_C3_fsharp_minor_counterexample :
    DJ.get_compatible_tracks
        [⟨"a", "t", "x", 120, "F♯m", 300, "l1", false⟩] 120 "F♯" 2 = [] ∧
      "F♯m" ∉ DJ.get_all_compatible_keys "F♯" := by
  decide

/-- Claim C3 (amended): for query key `F♯` the `F♯m` row is excluded, while a
row stored with the actual relative minor `D♯m` is included and tagged
`Good`. -/
theorem claim_C3_relative_minor_amended :
    DJ.get_compatible_tracks
        [⟨"a", "t", "x", 120, "F♯m", 300, "l1", false⟩,
         ⟨"b", "u", "x", 120, "D♯m", 300, "l2", false⟩] 120 "F♯" 2 =
      [⟨"b", "u", "x", 120, "D♯m", 300, "l2", false⟩] ∧
      DJ.compatibility_tier "F♯" "D♯m" = "Good" := by
  decide

/-- Claim C4 counterexample: a row whose stored key `8B` normalizes to the
query key `C` but does not equal it as a raw string sorts in the second group,
so the row with key `G` (not normalization-equal to the query key) and a
smaller tempo distance is returned first. -/
theorem claim_C4_ordering_counterexample :
    DJ.get_compatible_tracks
        [⟨"a", "t", "x", 121, "8B", 300, "l1", false⟩,
         ⟨"b", "u", "x", 120, "G", 300, "l2", false⟩] 120 "C" 2 =
      [⟨"b", "u", "x", 120, "G", 300, "l2", false⟩,
       ⟨"a", "t", "x", 121, "8B", 300, "l1", false⟩] ∧
      DJ.normalize_key "8B" = DJ.normalize_key "C" ∧
      DJ.normalize_key "G" ≠ DJ.normalize_key "C" := by
  decide

/-- Claim C4 (amended): the query result is sorted by the pair (raw-string
match with the query key as given, absolute tempo distance ascending) — not by
match after normalization — and contains at most 50 rows. -/
theorem claim_C4_ordering_amended (catalog : List DJ.Track) (bpm : Rat)
    (key : String) (tol : Rat) :
    (DJ.get_compatible_tracks catalog bpm key tol).Sorted (DJ.track_le key bpm) ∧
      (DJ.get_compatible_tracks catalog bpm key tol).length ≤ 50 := by
  refine ⟨?_, ?_⟩
  · exact List.Pairwise.sublist (List.take_sublist _ _)
      (List.sorted_insertionSort (DJ.track_le key bpm) _)
  · exact List.length_take_le _ _

/-- Claim C5: scanning an unchanged directory twice (same candidate files
with distinct paths, every file readable, every first-scan analysis
succeeding) reports `new_files = 0` and `updated_files = 0` on the second
run and equal `files_found` in both runs. -/
theorem claim_C5_rescan_unchanged (analyzer : String → Option DJ.Analysis)
    (db0 : DJ.DB) (files : List DJ.FileEntry)
    (hstat : ∀ f ∈ DJ.candidates files, f.statOk = true)
    (hana : ∀ f ∈ DJ.candidates files, (analyzer f.path).isSome = true)
    (hpaths : (DJ.candidates files).Pairwise (fun x y => x.path ≠ y.path)) :
    (DJ.scan_music_library analyzer
        (DJ.scan_music_library analyzer db0 files).db files).new_files = 0 ∧
      (DJ.scan_music_library analyzer
        (DJ.scan_music_library analyzer db0 files).db files).updated_files = 0 ∧
      (DJ.scan_music_library analyzer
        (DJ.scan_music_library analyzer db0 files).db files).files_found =
        (DJ.scan_music_library analyzer db0 files).files_found := by
  have hm : ∀ f ∈ DJ.candidates files,
      DJ.recMatches ((DJ.scan_music_library analyzer db0 files).db) f :=
    DJ.foldl_matches analyzer (DJ.candidates files) ⟨db0, 0, 0, 0⟩ hstat hana hpaths
  have hrun2 := DJ.foldl_matched_run analyzer (DJ.candidates files)
    ⟨(DJ.scan_music_library analyzer db0 files).db, 0, 0, 0⟩ hstat hm
  have hrun1 := DJ.foldl_files_found analyzer (DJ.candidates files) ⟨db0, 0, 0, 0⟩ hstat
  refine ⟨?_, ?_, ?_⟩
  · show ((DJ.candidates files).foldl (DJ.scanStep analyzer)
        ⟨(DJ.scan_music_library analyzer db0 files).db, 0, 0, 0⟩).new_files = 0
    rw [hrun2]
  · show ((DJ.candidates files).foldl (DJ.scanStep analyzer)
        ⟨(DJ.scan_music_library analyzer db0 files).db, 0, 0, 0⟩).updated_files = 0
    rw [hrun2]
  · show ((DJ.candidates files).foldl (DJ.scanStep analyzer)
        ⟨(DJ.scan_music_library analyzer db0 files).db, 0, 0, 0⟩).files_found =
      (DJ.scan_music_library analyzer db0 files).files_found
    rw [hrun2]
    exact hrun1.symm

/-- Witness for C5: a one-file directory whose only candidate is readable
and analyzable; the second scan reports zero new and updated files. -/
theorem claim_C5_rescan_unchanged_witness :
    (DJ.scan_music_library (fun _ => some ⟨0, none, none, none, none⟩)
        (DJ.scan_music_library (fun _ => some ⟨0, none, none, none, none⟩) []
          [⟨"/m/a.mp3", 10, 0, some "h", true⟩]).db
        [⟨"/m/a.mp3", 10, 0, some "h", true⟩]).new_files = 0 ∧
      (DJ.scan_music_library (fun _ => some ⟨0, none, none, none, none⟩)
        (DJ.scan_music_library (fun _ => some ⟨0, none, none, none, none⟩) []
          [⟨"/m/a.mp3", 10, 0, some "h", true⟩]).db
        [⟨"/m/a.mp3", 10, 0, some "h", true⟩]).updated_files = 0 ∧
      (DJ.scan_music_library (fun _ => some ⟨0, none, none, none, none⟩)
        (DJ.scan_music_library (fun _ => some ⟨0, none, none, none, none⟩) []
          [⟨"/m/a.mp3", 10, 0, some "h", true⟩]).db
        [⟨"/m/a.mp3", 10, 0, some "h", true⟩]).files_found =
        (DJ.scan_music_library (fun _ => some ⟨0, none, none, none, none⟩) []
          [⟨"/m/a.mp3", 10, 0, some "h", true⟩]).files_found :=
  claim_C5_rescan_unchanged (fun _ => some ⟨0, none, none, none, none⟩) []
    [⟨"/m/a.mp3", 10, 0, some "h", true⟩] (by decide) (by decide) (by decide)

/-- Claim C6 counterexample: one readable new file whose analysis fails —
the scan leaves the database untouched but still reports `new_files = 1`,
contradicting the claim that a failed analysis is not counted. -/
theorem claim_C6_analysis_failure_counterexample :
    DJ.scan_music_library (fun _ => none) []
        [⟨"/m/a.mp3", 10, 0, some "h", true⟩] =
      ⟨[], 1, 1, 0⟩ := by
  decide

/-- Claim C6 (amended): when the analysis of a file flagged as needing
analysis fails, the database (and so any prior record for the path) is left
untouched, but the file is still counted: `new_files` is incremented when it
had no prior row, and `updated_files` when its fingerprint differed —
because the counters are incremented before the analysis attempt. -/
theorem claim_C6_analysis_failure_amended (analyzer : String → Option DJ.Analysis)
    (s : DJ.ScanState) (f : DJ.FileEntry)
    (hstat : f.statOk = true) (hfail : analyzer f.path = none) :
    (DJ.scanStep analyzer s f).db = s.db ∧
      (DJ.dbLookup s.db f.path = none →
        (DJ.scanStep analyzer s f).new_files = s.new_files + 1) ∧
      (∀ r, DJ.dbLookup s.db f.path = some r →
        (r.file_hash ≠ f.hashResult ∨ r.last_modified ≠ f.mtime) →
        (DJ.scanStep analyzer s f).updated_files = s.updated_files + 1) := by
  refine ⟨?_, ?_, ?_⟩
  · cases hl : DJ.dbLookup s.db f.path with
    | none => simp [DJ.scanStep, hstat, hl, hfail]
    | some r =>
      by_cases hne : r.file_hash ≠ f.hashResult ∨ r.last_modified ≠ f.mtime
      · simp [DJ.scanStep, hstat, hl, hne, hfail]
      · simp [DJ.scanStep, hstat, hl, hne]
  · intro hl
    simp [DJ.scanStep, hstat, hl, hfail]
  · intro r hl hne
    simp [DJ.scanStep, hstat, hl, hne, hfail]

/-- Witness for the amended C6: a new readable file whose analysis fails is
still counted as new while the database stays empty. -/
theorem claim_C6_analysis_failure_amended_witness :
    (DJ.scanStep (fun _ => none) ⟨[], 0, 0, 0⟩ ⟨"/m/a.mp3", 10, 0, some "h", true⟩).db =
        (⟨[], 0, 0, 0⟩ : DJ.ScanState).db ∧
      (DJ.dbLookup (⟨[], 0, 0, 0⟩ : DJ.ScanState).db "/m/a.mp3" = none →
        (DJ.scanStep (fun _ => none) ⟨[], 0, 0, 0⟩
          ⟨"/m/a.mp3", 10, 0, some "h", true⟩).new_files =
          (⟨[], 0, 0, 0⟩ : DJ.ScanState).new_files + 1) ∧
      (∀ r, DJ.dbLookup (⟨[], 0, 0, 0⟩ : DJ.ScanState).db "/m/a.mp3" = some r →
        (r.file_hash ≠ some "h" ∨ r.last_modified ≠ 0) →
        (DJ.scanStep (fun _ => none) ⟨[], 0, 0, 0⟩
          ⟨"/m/a.mp3", 10, 0, some "h", true⟩).updated_files =
          (⟨[], 0, 0, 0⟩ : DJ.ScanState).updated_files + 1) :=
  claim_C6_analysis_failure_amended (fun _ => none) ⟨[], 0, 0, 0⟩
    ⟨"/m/a.mp3", 10, 0, some "h", true⟩ rfl rfl

/-- Claim C7 counterexample: a readable candidate whose fingerprint
computation fails (hash `none`) is not skipped: the scan counts it in
`files_found` (and as new) and even upserts a row with a NULL hash. -/
theorem claim_C7_fingerprint_failure_counterexample :
    DJ.scan_music_library (fun _ => some ⟨0, none, none, none, none⟩) []
        [⟨"/m/a.mp3", 10, 0, none, true⟩] =
      ⟨[("/m/a.mp3", ⟨none, 10, 0, none, none, 0, none, none, none, none⟩)], 1, 1, 0⟩ := by
  decide

/-- Claim C7 (amended): a candidate whose fingerprint computation fails is
not skipped — as long as `stat` succeeds the per-file step still counts it
in `files_found`; only a `stat` exception takes the skip path. The scan as a
whole still completes over the remaining candidates. -/
theorem claim_C7_fingerprint_failure_amended (analyzer : String → Option DJ.Analysis)
    (s : DJ.ScanState) (f : DJ.FileEntry)
    (hhash : f.hashResult = none) (hstat : f.statOk = true) :
    (DJ.scanStep analyzer s f).files_found = s.files_found + 1 :=
  DJ.scanStep_files_found analyzer s f hstat

/-- Witness for the amended C7. -/
theorem claim_C7_fingerprint_failure_amended_witness :
    (DJ.scanStep (fun _ => some ⟨0, none, none, none, none⟩) ⟨[], 0, 0, 0⟩
        ⟨"/m/a.mp3", 10, 0, none, true⟩).files_found =
      (⟨[], 0, 0, 0⟩ : DJ.ScanState).files_found + 1 :=
  claim_C7_fingerprint_failure_amended (fun _ => some ⟨0, none, none, none, none⟩)
    ⟨[], 0, 0, 0⟩ ⟨"/m/a.mp3", 10, 0, none, true⟩ rfl rfl

/-- Claim C9: a scan never deletes rows from the scanned-files catalog:
every path with a row before the scan still has a row afterwards. -/
theorem claim_C9_scan_never_deletes (analyzer : String → Option DJ.Analysis)
    (db0 : DJ.DB) (files : List DJ.FileEntry) (p : String)
    (h : (DJ.dbLookup db0 p).isSome = true) :
    (DJ.dbLookup (DJ.scan_music_library analyzer db0 files).db p).isSome = true :=
  DJ.foldl_preserves_isSome analyzer (DJ.candidates files) ⟨db0, 0, 0, 0⟩ p h

/-- Witness for C9: a stale row for a path that no longer exists on disk
survives a scan of a directory that does not contain it. -/
theorem claim_C9_scan_never_deletes_witness :
    (DJ.dbLookup
      (DJ.scan_music_library (fun _ => none)
        [("/gone.mp3", ⟨none, 0, 0, none, none, 0, none, none, none, none⟩)]
        [⟨"/m/a.mp3", 10, 0, some "h", true⟩]).db "/gone.mp3").isSome = true :=
  claim_C9_scan_never_deletes (fun _ => none)
    [("/gone.mp3", ⟨none, 0, 0, none, none, 0, none, none, none, none⟩)]
    [⟨"/m/a.mp3", 10, 0, some "h", true⟩] "/gone.mp3" rfl

/-- Claim C8 counterexample: a readable empty file (shorter than 128 KiB)
does not succeed: `get_file_hash` returns `none` because the tail seek
fails for any file smaller than the 64 KiB read window. -/
theorem claim_C8_small_file_counterexample :
    DJ.get_file_hash true [] = none ∧ ([] : List Nat).length < 131072 := by
  decide

/-- Claim C8 (amended): the fingerprint is null exactly when the file cannot
be opened or is smaller than the 64 KiB read window at the tail-seek step;
every readable file with size in [64 KiB, 128 KiB] succeeds and its digest
input covers every byte of the file via the two overlapping reads. -/
theorem claim_C8_fingerprint_amended (openOk : Bool) (content : List Nat) :
    (DJ.get_file_hash openOk content = none ↔
        openOk = false ∨ content.length < 65536) ∧
      (openOk = true → 65536 ≤ content.length → content.length ≤ 131072 →
        ∃ digest, DJ.get_file_hash openOk content = some digest ∧
          ∀ b ∈ content, b ∈ digest) := by
  constructor
  · cases openOk with
    | false => simp [DJ.get_file_hash]
    | true =>
      by_cases hlen : content.length < 65536
      · simp [DJ.get_file_hash, hlen]
      · simp [DJ.get_file_hash, hlen]
  · rintro rfl h1 h2
    refine ⟨content.take 65536 ++ (content.drop (content.length - 65536)).take 65536,
      by simp [DJ.get_file_hash, Nat.not_lt.mpr h1], ?_⟩
    have hdroplen : (content.drop (content.length - 65536)).length = 65536 := by
      rw [List.length_drop]
      omega
    have htake : (content.drop (content.length - 65536)).take 65536 =
        content.drop (content.length - 65536) :=
      List.take_of_length_le (le_of_eq hdroplen)
    rw [htake]
    intro b hb
    rw [← List.take_append_drop 65536 content] at hb
    rcases List.mem_append.mp hb with hb1 | hb2
    · exact List.mem_append.mpr (Or.inl hb1)
    · refine List.mem_append.mpr (Or.inr ?_)
      have hsplit : (content.drop (content.length - 65536)).drop
          (65536 - (content.length - 65536)) = content.drop 65536 := by
        rw [List.drop_drop]
        have h : (content.length - 65536) + (65536 - (content.length - 65536)) = 65536 := by
          omega
        rw [h]
      rw [← hsplit] at hb2
      exact List.mem_of_mem_drop hb2

/-- Witness for the amended C8 at a readable file of exactly 64 KiB. -/
theorem claim_C8_fingerprint_amended_witness :
    ∃ digest, DJ.get_file_hash true (List.replicate 65536 0) = some digest ∧
      ∀ b ∈ List.replicate 65536 (0 : Nat), b ∈ digest :=
  (claim_C8_fingerprint_amended true (List.replicate 65536 0)).2 rfl
    (le_of_eq (List.length_replicate 65536 0).symm)
    ((List.length_replicate 65536 0).trans_le (by norm_num))

